import Mathlib

/-!
# A shallow embedding of `src/alloc.c`

The allocator keeps an intrusive singly linked free list inside the heap it
manages.  The embedding keeps the heap as an explicit memory, the two globals
`HEAD` and `LAST_ALLOC` as fields of a state record, and the program break that
`sbrk` moves as two more fields.  Every C function becomes a Lean function on
that state; the three list walks (`find_prev`, `find_next`,
`remove_free_block`) take a fuel argument because they do not terminate on a
cyclic list.  The `printf` calls are diagnostic output and are left out.

Memory is a map from addresses to stored values.  A field of a header is one
stored value kept at the address of the field; a payload byte is the stored
value at its own address.  `size_t` and pointer arithmetic is taken modulo
`2 ^ 64`.
-/

namespace Alloc

/-- Modelled from the spec: `alloc.h`, which declares `header` (fields `size`,
`magic`) and `free_block` (fields `size`, `next`), is not among the sources.
Section 3 of the specification says that a free block is the header
"logically reinterpreted", with one `header_size` for both, so the layout is a
parameter: `hsz` is `sizeof(header) = sizeof(free_block)`, the `size` field of
both records sits at offset `0`, and `off` is the offset of the second field
(`magic` of a header, `next` of a free block). -/
structure Layout where
  hsz : Nat
  off : Nat

/-- The layout of the two records on an LP64 platform: two 8-byte fields. -/
def lp64 : Layout := ⟨16, 8⟩

/-- `#define ALIGNMENT 16`. -/
def ALIGNMENT : Nat := 16

/-- `#define MAGIC_NUMBER 0x0512ABCD`. -/
def MAGIC_NUMBER : Nat := 0x0512ABCD

/-- The null pointer. -/
def NULL : Nat := 0

/-- The number of values of a `size_t` or of a pointer. -/
def W64 : Nat := 18446744073709551616

/-- The heap: the value stored at every address. -/
abbrev Mem := Nat → Nat

/-- Reading the value stored at address `a`. -/
def load (m : Mem) (a : Nat) : Nat := m a

/-- Writing the value `v` at address `a`. -/
def store (m : Mem) (a v : Nat) : Mem := fun x => if x = a then v else m x

/-- Subtraction of `size_t` values, modulo `2 ^ 64`. -/
def sub64 (a b : Nat) : Nat := (a + (W64 - b % W64)) % W64

/-- The `size_t` value of a `size_t` argument after it went through a
parameter of type `int` (`split` declares `int size`): the low 32 bits,
sign-extended to 64 bits. -/
def intArg (n : Nat) : Nat :=
  if n % 4294967296 < 2147483648 then n % 4294967296
  else n % 4294967296 + (W64 - 4294967296)

/-- The process-wide state: the heap, the two globals of `alloc.c`, the
program break and the highest break the operating system grants. -/
structure State where
  mem : Mem
  HEAD : Nat
  LAST_ALLOC : Nat
  brk : Nat
  limit : Nat

/-- Ways in which a call yields no result. -/
inductive Fault where
  | outOfFuel
  | noReturnValue
  deriving DecidableEq, Repr

/-- The `size` field of the block at `b`. -/
def sizeOf (m : Mem) (b : Nat) : Nat := load m b

/-- The `next` field of the free block at `b`. -/
def nextOf (L : Layout) (m : Mem) (b : Nat) : Nat := load m (b + L.off)

/-- The `magic` field of the header at `b`. -/
def magicOf (L : Layout) (m : Mem) (b : Nat) : Nat := load m (b + L.off)

/-- `split(block, size)`: returns `NULL` and the memory unchanged when the
block is too small, otherwise the block and the memory with the remainder
header written and the block truncated. -/
def split (L : Layout) (m : Mem) (block size : Nat) : Nat × Mem :=
  let sz := intArg size
  if sizeOf m block < (sz + L.hsz) % W64 then (NULL, m)
  else
    let new_block := (block + sz + L.hsz) % W64
    let m1 := store m new_block (sub64 (sub64 (sizeOf m block) sz) L.hsz)
    let m2 := store m1 (new_block + L.off) (nextOf L m1 block)
    let m3 := store m2 block sz
    (block, m3)

/-- The loop of `find_prev`, started at `curr`. -/
def find_prev_loop (L : Layout) (m : Mem) (block : Nat) : Nat → Nat → Except Fault Nat
  | 0, curr => if curr = NULL then .ok NULL else .error .outOfFuel
  | fuel + 1, curr =>
    if curr = NULL then .ok NULL
    else if (curr + sizeOf m curr + L.hsz) % W64 = block then .ok curr
    else find_prev_loop L m block fuel (nextOf L m curr)

/-- `find_prev(block)`. -/
def find_prev (L : Layout) (fuel : Nat) (st : State) (block : Nat) : Except Fault Nat :=
  find_prev_loop L st.mem block fuel st.HEAD

/-- The loop of `find_next`, started at `curr`, looking for `block_end`. -/
def find_next_loop (L : Layout) (m : Mem) (block_end : Nat) : Nat → Nat → Except Fault Nat
  | 0, curr => if curr = NULL then .ok NULL else .error .outOfFuel
  | fuel + 1, curr =>
    if curr = NULL then .ok NULL
    else if curr = block_end then .ok curr
    else find_next_loop L m block_end fuel (nextOf L m curr)

/-- `find_next(block)`. -/
def find_next (L : Layout) (fuel : Nat) (st : State) (block : Nat) : Except Fault Nat :=
  find_next_loop L st.mem ((block + sizeOf st.mem block + L.hsz) % W64) fuel st.HEAD

/-- The loop of `remove_free_block`, started at `curr`. -/
def remove_loop (L : Layout) (block : Nat) : Nat → Mem → Nat → Except Fault Mem
  | 0, m, curr => if curr = NULL then .ok m else .error .outOfFuel
  | fuel + 1, m, curr =>
    if curr = NULL then .ok m
    else if nextOf L m curr = block then .ok (store m (curr + L.off) (nextOf L m block))
    else remove_loop L block fuel m (nextOf L m curr)

/-- `remove_free_block(block)`. -/
def remove_free_block (L : Layout) (fuel : Nat) (st : State) (block : Nat) :
    Except Fault State :=
  if st.HEAD = block then .ok { st with HEAD := nextOf L st.mem block }
  else
    match remove_loop L block fuel st.mem st.HEAD with
    | .error e => .error e
    | .ok m => .ok { st with mem := m }

/-- The first half of `coalesce`: merging `block` into its address predecessor
`prev`.  Returns the memory and the block the second half goes on with. -/
def coalesce_prev (L : Layout) (m : Mem) (prev block : Nat) : Mem × Nat :=
  if prev ≠ NULL then
    if (prev + sizeOf m prev + L.hsz) % W64 = block then
      let m1 := store m prev ((sizeOf m prev + (sizeOf m block + L.hsz)) % W64)
      let m2 := if nextOf L m1 prev = block then store m1 (prev + L.off) (nextOf L m1 block)
                else m1
      (m2, prev)
    else (m, block)
  else (m, block)

/-- The second half of `coalesce`: absorbing the address successor `next`. -/
def coalesce_next (L : Layout) (m : Mem) (block next : Nat) : Mem :=
  if next ≠ NULL then
    if (block + sizeOf m block + L.hsz) % W64 = next then
      let m1 := store m block ((sizeOf m block + (sizeOf m next + L.hsz)) % W64)
      store m1 (block + L.off) (nextOf L m1 next)
    else m
  else m

/-- `coalesce(block)`. -/
def coalesce (L : Layout) (fuel : Nat) (st : State) (block : Nat) :
    Except Fault (Nat × State) :=
  if block = NULL then .ok (NULL, st)
  else
    match find_prev L fuel st block with
    | .error e => .error e
    | .ok prev =>
      match find_next L fuel st block with
      | .error e => .error e
      | .ok next =>
        let r := coalesce_prev L st.mem prev block
        let m := coalesce_next L r.1 r.2 next
        .ok (r.2, { st with mem := m })

/-- `next_fit_search(size)`.  The `return NULL;` of the source stands inside
the body of the `while` loop, after the two nested `if`s, so the body runs at
most once: only the first candidate (`LAST_ALLOC`, or `HEAD` when the cursor
is `NULL`) is examined.  The `break` leaves the loop and the function ends
without a `return` statement. -/
def next_fit_search (L : Layout) (fuel : Nat) (st : State) (size : Nat) :
    Except Fault (Nat × State) :=
  if st.HEAD = NULL then .ok (NULL, st)
  else
    let curr := if st.LAST_ALLOC ≠ NULL then st.LAST_ALLOC else st.HEAD
    if sizeOf st.mem curr ≥ size then
      let r := split L st.mem curr size
      if r.1 ≠ NULL then
        match remove_free_block L fuel { st with mem := r.2 } curr with
        | .error e => .error e
        | .ok st1 =>
          let remainder := (r.1 + size + L.hsz) % W64
          let m1 := store st1.mem (remainder + L.off) st1.HEAD
          .ok (r.1, { st1 with mem := m1, HEAD := remainder, LAST_ALLOC := r.1 })
      else
        match remove_free_block L fuel { st with mem := r.2 } curr with
        | .error e => .error e
        | .ok st1 => .ok (curr, { st1 with LAST_ALLOC := curr })
    else
      let curr1 := nextOf L st.mem curr
      if curr1 = st.HEAD then
        if NULL = st.LAST_ALLOC then .error .noReturnValue
        else .ok (NULL, st)
      else .ok (NULL, st)

/-- Modelled from the spec: `sbrk` is the heap source of section 6,
`grow(additional_bytes) -> base_address | FAILURE`.  It returns the old break
and moves the break forward, or fails and leaves the break where it is when
the operating system grants no more than `limit`. -/
def sbrk (st : State) (incr : Nat) : Option Nat × State :=
  if st.brk + incr ≤ st.limit then (some st.brk, { st with brk := st.brk + incr })
  else (none, st)

/-- `do_alloc(size)`. -/
def do_alloc (L : Layout) (st : State) (size : Nat) : Nat × State :=
  let addr := st.brk
  let misalignment := addr % ALIGNMENT
  let alignment_correction := if misalignment ≠ 0 then ALIGNMENT - misalignment else 0
  match sbrk st ((size + L.hsz + alignment_correction) % W64) with
  | (none, st1) => (NULL, st1)
  | (some _, st1) =>
    let hdr := (addr + alignment_correction) % W64
    let m1 := store st1.mem hdr size
    let m2 := store m1 (hdr + L.off) MAGIC_NUMBER
    ((addr + alignment_correction + L.hsz) % W64, { st1 with mem := m2 })

/-- `tumalloc(size)`. -/
def tumalloc (L : Layout) (fuel : Nat) (st : State) (size : Nat) :
    Except Fault (Nat × State) :=
  if size = 0 then .ok (NULL, st)
  else
    let true_size := (size + L.hsz) % W64
    match next_fit_search L fuel st true_size with
    | .error e => .error e
    | .ok (ptr, st1) =>
      if ptr ≠ NULL then
        let m1 := store st1.mem ptr size
        let m2 := store m1 (ptr + L.off) MAGIC_NUMBER
        .ok ((ptr + L.hsz) % W64, { st1 with mem := m2 })
      else .ok (do_alloc L st1 size)

/-- `tucalloc(num, size)`. -/
def tucalloc (L : Layout) (fuel : Nat) (st : State) (num size : Nat) :
    Except Fault (Nat × State) :=
  if num = 0 ∨ size = 0 then .ok (NULL, st)
  else
    let true_size := (num * size + L.hsz) % W64
    tumalloc L fuel st true_size

/-- `tufree(ptr)`. -/
def tufree (L : Layout) (fuel : Nat) (st : State) (ptr : Nat) : Except Fault State :=
  if ptr = NULL then .ok st
  else
    let hdr := sub64 ptr L.hsz
    if magicOf L st.mem hdr ≠ MAGIC_NUMBER then .ok st
    else
      let block := hdr
      let m1 := store st.mem block (sizeOf st.mem hdr)
      let m2 := store m1 (block + L.off) st.HEAD
      match coalesce L fuel { st with mem := m2, HEAD := block } block with
      | .error e => .error e
      | .ok (_, st1) => .ok st1

/-- `memcpy(dst, src, n)`: the `n` values at `src` copied to `dst`. -/
def memcpy (m : Mem) (dst src n : Nat) : Mem :=
  fun a => if dst ≤ a ∧ a < dst + n then m (src + (a - dst)) else m a

/-- `turealloc(ptr, new_size)`. -/
def turealloc (L : Layout) (fuel : Nat) (st : State) (ptr new_size : Nat) :
    Except Fault (Nat × State) :=
  if ptr = NULL then tumalloc L fuel st new_size
  else if new_size = 0 then
    match tufree L fuel st ptr with
    | .error e => .error e
    | .ok st1 => .ok (NULL, st1)
  else
    let hdr := sub64 ptr L.hsz
    if magicOf L st.mem hdr ≠ MAGIC_NUMBER then .ok (NULL, st)
    else
      let old_size := sizeOf st.mem hdr
      if new_size ≤ old_size then .ok (ptr, st)
      else
        match tumalloc L fuel st new_size with
        | .error e => .error e
        | .ok (new_ptr, st1) =>
          if new_ptr = NULL then .ok (NULL, st1)
          else
            let m1 := memcpy st1.mem new_ptr ptr old_size
            match tufree L fuel { st1 with mem := m1 } ptr with
            | .error e => .error e
            | .ok st2 => .ok (new_ptr, st2)

/-! ## Scenarios -/

/-- The state before the first call: empty heap, both globals `NULL`, the
break at a page boundary. -/
def init : State :=
  { mem := fun _ => 0, HEAD := NULL, LAST_ALLOC := NULL, brk := 4096, limit := 1048576 }

/-- The caller writing the value `v` to the `n` addresses from `p` on. -/
def fill (st : State) (p n v : Nat) : State :=
  { st with mem := fun a => if p ≤ a ∧ a < p + n then v else st.mem a }

/-- The blocks met by following `next` links from `curr`, at most `fuel` of
them. -/
def free_list (L : Layout) (m : Mem) : Nat → Nat → List Nat
  | 0, _ => []
  | fuel + 1, curr => if curr = NULL then [] else curr :: free_list L m fuel (nextOf L m curr)

/-- The byte ranges of the blocks at `x` and `y`, header and payload, meet. -/
def overlaps (L : Layout) (m : Mem) (x y : Nat) : Prop :=
  x < y + L.hsz + sizeOf m y ∧ y < x + L.hsz + sizeOf m x

instance (L : Layout) (m : Mem) (x y : Nat) : Decidable (overlaps L m x y) := by
  unfold overlaps; infer_instance

/-- The block at `y` starts exactly where the block at `x` ends. -/
def adjacent (L : Layout) (m : Mem) (x y : Nat) : Prop :=
  x + L.hsz + sizeOf m x = y

instance (L : Layout) (m : Mem) (x y : Nat) : Decidable (adjacent L m x y) := by
  unfold adjacent; infer_instance

/-- Three allocations in a row on a fresh heap with a release in between: a
block of 4128 bytes is allocated and released, 4096 bytes are allocated from
it at `p`, the caller fills the 4096 bytes with the value 170, and one more
byte is allocated at `q`.  The result holds `p`, `q`, the state before the
last call and the state after it. -/
def reuse_trace : Except Fault (Nat × Nat × State × State) := do
  let (a, s1) ← tumalloc lp64 8 init 4128
  let s2 ← tufree lp64 8 s1 a
  let (p, s3) ← tumalloc lp64 8 s2 4096
  let s4 := fill s3 p 4096 170
  let (q, s5) ← tumalloc lp64 8 s4 1
  pure (p, q, s4, s5)

/-- Two allocations of `n` bytes each on a fresh heap; the second block starts
where the first one ends. -/
def two_blocks (n : Nat) : Except Fault (Nat × Nat × State) := do
  let (a, s1) ← tumalloc lp64 8 init n
  let (b, s2) ← tumalloc lp64 8 s1 n
  pure (a, b, s2)

/-- Two adjacent blocks of `n` bytes, released in address order. -/
def release_in_order (n : Nat) : Except Fault State := do
  let (a, b, s2) ← two_blocks n
  let s3 ← tufree lp64 8 s2 a
  tufree lp64 8 s3 b

/-- Two adjacent blocks of 64 bytes released in address order, then 16 bytes
allocated. -/
def release_then_alloc : Except Fault (Nat × State) := do
  let s4 ← release_in_order 64
  tumalloc lp64 8 s4 16

/-- Three adjacent blocks of 16 bytes on a fresh heap, the first and the third
released, in that order.  The result holds the payload address of the middle
block, still live, and the state. -/
def outer_released : Except Fault (Nat × State) := do
  let (a, s1) ← tumalloc lp64 8 init 16
  let (p, s2) ← tumalloc lp64 8 s1 16
  let (c, s3) ← tumalloc lp64 8 s2 16
  let s4 ← tufree lp64 8 s3 a
  let s5 ← tufree lp64 8 s4 c
  pure (p, s5)

/-- Two adjacent 16-byte blocks, the first released, and the guard of the
second overwritten by the caller.  The result holds the payload address of
the second block and the state. -/
def guard_overwritten : Except Fault (Nat × State) := do
  let (a, b, s2) ← two_blocks 16
  let s3 ← tufree lp64 8 s2 a
  pure (b, { s3 with mem := store s3.mem (b - lp64.hsz + lp64.off) 0 })

/-- The state of `guard_overwritten`. -/
def guard_overwritten_state : State :=
  match guard_overwritten with
  | .ok (_, s) => s
  | .error _ => init

/-- A 64-byte block allocated on a fresh heap, filled by the caller with the
value 170 and released: a free list of one block of size 64. -/
def one_free_block : Except Fault State := do
  let (a, s1) ← tumalloc lp64 8 init 64
  tufree lp64 8 (fill s1 a 64 170) a

/-- Three adjacent blocks of 16 bytes and a block of 100 bytes on a fresh
heap; the first, the third and the second of the small blocks are released,
in that order.  The result holds the payload address of the 100-byte block,
still live, and the state. -/
def middle_released_last : Except Fault (Nat × State) := do
  let (a, s1) ← tumalloc lp64 8 init 16
  let (b, s2) ← tumalloc lp64 8 s1 16
  let (c, s3) ← tumalloc lp64 8 s2 16
  let (p, s4) ← tumalloc lp64 8 s3 100
  let s5 ← tufree lp64 8 s4 a
  let s6 ← tufree lp64 8 s5 c
  let s7 ← tufree lp64 8 s6 b
  pure (p, s7)

/-- The state of `middle_released_last`. -/
def middle_released_last_state : State :=
  match middle_released_last with
  | .ok (_, s) => s
  | .error _ => init

/-- The state `tumalloc(1000)` leaves when called in
`middle_released_last_state`. -/
def middle_released_last_grown : State :=
  match tumalloc lp64 0 middle_released_last_state 1000 with
  | .ok (_, s) => s
  | .error _ => init

/-- Two adjacent blocks of `n` bytes, released in reverse address order. -/
def release_in_reverse (n : Nat) : Except Fault State := do
  let (a, b, s2) ← two_blocks n
  let s3 ← tufree lp64 8 s2 b
  tufree lp64 8 s3 a

/-- A block of 100 bytes allocated on a fresh heap, filled by the caller with
the value 170 and grown to 1000 bytes. -/
def grow_on_fresh_heap : Except Fault (Nat × Nat × State) := do
  let (p, s1) ← tumalloc lp64 8 init 100
  let (q, s2) ← turealloc lp64 8 (fill s1 p 100 170) p 1000
  pure (p, q, s2)

/-- The state after one allocation of 100 bytes on a fresh heap; the payload
is at 4112. -/
def one_live_block_state : State :=
  match tumalloc lp64 8 init 100 with
  | .ok (_, s) => s
  | .error _ => init

/-- The state of `one_free_block`. -/
def one_free_block_state : State :=
  match one_free_block with
  | .ok s => s
  | .error _ => init

/-- The number of bytes `do_alloc` adds to the break of `st` to make the new
header start at a multiple of `ALIGNMENT`. -/
def alignment_correction (st : State) : Nat :=
  if st.brk % ALIGNMENT ≠ 0 then ALIGNMENT - st.brk % ALIGNMENT else 0

/-- A 64-byte block, a 16-byte block that stays live and a 16-byte block on a
fresh heap; the first and the third are released, in that order, which leaves
the small block at the head of the free list and the large one behind it. -/
def small_before_large : Except Fault State := do
  let (a, s1) ← tumalloc lp64 8 init 64
  let (_, s2) ← tumalloc lp64 8 s1 16
  let (c, s3) ← tumalloc lp64 8 s2 16
  let s4 ← tufree lp64 8 s3 a
  tufree lp64 8 s4 c

/-- A block of 4128 bytes allocated and released on a fresh heap, and 4096
bytes allocated from it.  The result holds the payload address of that
allocation and the state. -/
def cursor_on_live_block : Except Fault (Nat × State) := do
  let (a, s1) ← tumalloc lp64 8 init 4128
  let s2 ← tufree lp64 8 s1 a
  tumalloc lp64 8 s2 4096

/-- Four adjacent 16-byte blocks on a fresh heap; the second and the fourth
are released, in that order.  The result holds the payload address of the
first block, still live, and the state. -/
def unrelated_block_listed : Except Fault (Nat × State) := do
  let (p, s1) ← tumalloc lp64 8 init 16
  let (n, s2) ← tumalloc lp64 8 s1 16
  let (_, s3) ← tumalloc lp64 8 s2 16
  let (c, s4) ← tumalloc lp64 8 s3 16
  let s5 ← tufree lp64 8 s4 n
  let s6 ← tufree lp64 8 s5 c
  pure (p, s6)

/-- Three adjacent 16-byte blocks `P`, `X`, `N` on a fresh heap, released in
the order `P`, `N`, `X`. -/
def three_releases : Except Fault State := do
  let (p, s1) ← tumalloc lp64 8 init 16
  let (x, s2) ← tumalloc lp64 8 s1 16
  let (n, s3) ← tumalloc lp64 8 s2 16
  let s4 ← tufree lp64 8 s3 p
  let s5 ← tufree lp64 8 s4 n
  tufree lp64 8 s5 x

/-- The state of `three_releases`. -/
def three_releases_state : State :=
  match three_releases with
  | .ok s => s
  | .error _ => init

/-- The state `tumalloc(16)` leaves when called in `three_releases_state`. -/
def three_releases_grown : State :=
  match tumalloc lp64 0 three_releases_state 16 with
  | .ok (_, s) => s
  | .error _ => init

/-- The candidate `next_fit_search` examines: the cursor, or the head of the
list when the cursor is `NULL`. -/
def candidate (st : State) : Nat :=
  if st.LAST_ALLOC ≠ NULL then st.LAST_ALLOC else st.HEAD

/-- One step of a caller: a call of one of the four public functions, or a
write to memory.  `realloc i n` and `free i` are applied to the `i`-th pointer
the caller was given so far, `NULL` when there is none. -/
inductive Op where
  | malloc (n : Nat)
  | calloc (k n : Nat)
  | realloc (i n : Nat)
  | free (i : Nat)
  | poke (a v : Nat)

/-- The effect of one step on the state and on the list of the pointers
returned so far. -/
def step (L : Layout) (fuel : Nat) (c : State × List Nat) : Op → Except Fault (State × List Nat)
  | .malloc n =>
    match tumalloc L fuel c.1 n with
    | .error e => .error e
    | .ok (p, st) => .ok (st, c.2 ++ [p])
  | .calloc k n =>
    match tucalloc L fuel c.1 k n with
    | .error e => .error e
    | .ok (p, st) => .ok (st, c.2 ++ [p])
  | .realloc i n =>
    match turealloc L fuel c.1 (c.2.getD i NULL) n with
    | .error e => .error e
    | .ok (p, st) => .ok (st, c.2 ++ [p])
  | .free i =>
    match tufree L fuel c.1 (c.2.getD i NULL) with
    | .error e => .error e
    | .ok st => .ok (st, c.2)
  | .poke a v => .ok ({ c.1 with mem := store c.1.mem a v }, c.2)

/-- A sequence of steps, stopped by the first call that yields no result. -/
def run (L : Layout) (fuel : Nat) : List Op → State × List Nat → Except Fault (State × List Nat)
  | [], c => .ok c
  | op :: ops, c =>
    match step L fuel c op with
    | .error e => .error e
    | .ok c1 => run L fuel ops c1

/-- The cursor is a multiple of `ALIGNMENT`, and so is the head of the free
list as long as the cursor is `NULL`. -/
def cursor_aligned (st : State) : Prop :=
  st.LAST_ALLOC % ALIGNMENT = 0 ∧ (st.LAST_ALLOC = NULL → st.HEAD % ALIGNMENT = 0)

/-- A run on a fresh heap with request sizes that are not multiples of 16,
with a release, a reuse by split, a zero-allocation, a shrink and a growth. -/
def aligned_ops : List Op :=
  [.malloc 100, .malloc 7, .free 0, .malloc 5, .poke 4112 170, .calloc 3 1, .realloc 2 3,
   .realloc 1 1000, .free 2, .malloc 1]

/-- The state at the end of `aligned_ops`. -/
def aligned_ops_state : State :=
  match run lp64 8 aligned_ops (init, []) with
  | .ok c => c.1
  | .error _ => init

/-! ## Lemmas on the list walks -/

/-- The walk of `find_prev` fails only by running out of fuel. -/
theorem find_prev_loop_fault (L : Layout) (m : Mem) (block : Nat) :
    ∀ (fuel curr : Nat) (e : Fault),
      find_prev_loop L m block fuel curr = .error e → e = .outOfFuel := by
  intro fuel
  induction fuel with
  | zero =>
    intro curr e h
    unfold find_prev_loop at h
    split at h
    · cases h
    · cases h; rfl
  | succ k ih =>
    intro curr e h
    unfold find_prev_loop at h
    split at h
    · cases h
    · split at h
      · cases h
      · exact ih _ e h

/-- On a set of blocks closed under `next` that holds neither `NULL` nor the
address looked for, the walk of `find_next` runs out of any amount of fuel. -/
theorem find_next_loop_cycle (L : Layout) (m : Mem) (block_end : Nat) (cyc : List Nat)
    (h : ∀ x ∈ cyc, x ≠ NULL ∧ x ≠ block_end ∧ nextOf L m x ∈ cyc) :
    ∀ (fuel x : Nat), x ∈ cyc → find_next_loop L m block_end fuel x = .error .outOfFuel := by
  intro fuel
  induction fuel with
  | zero =>
    intro x hx
    unfold find_next_loop
    rw [if_neg (h x hx).1]
  | succ k ih =>
    intro x hx
    unfold find_next_loop
    rw [if_neg (h x hx).1, if_neg (h x hx).2.1]
    exact ih _ (h x hx).2.2

/-- When the walk of `find_next` runs out of fuel, so does `coalesce`. -/
theorem coalesce_diverges (L : Layout) (fuel : Nat) (st : State) (block : Nat)
    (hb : block ≠ NULL) (hn : find_next L fuel st block = .error .outOfFuel) :
    coalesce L fuel st block = .error .outOfFuel := by
  unfold coalesce
  rw [if_neg hb, hn]
  cases hprev : find_prev L fuel st block with
  | error e => rw [find_prev_loop_fault L _ _ fuel _ e hprev]
  | ok prev => rfl

/-- A release whose block, once pushed, heads a list on which the walk of
`find_next` cannot end, does not return. -/
theorem tufree_diverges (L : Layout) (fuel : Nat) (st : State) (p : Nat) (cyc : List Nat)
    (hp : p ≠ NULL) (hg : magicOf L st.mem (sub64 p L.hsz) = MAGIC_NUMBER)
    (hb : sub64 p L.hsz ≠ NULL) (hmem : sub64 p L.hsz ∈ cyc)
    (hcyc : ∀ x ∈ cyc, x ≠ NULL ∧
      x ≠ (sub64 p L.hsz + sizeOf (store (store st.mem (sub64 p L.hsz)
          (sizeOf st.mem (sub64 p L.hsz))) (sub64 p L.hsz + L.off) st.HEAD) (sub64 p L.hsz)
            + L.hsz) % W64 ∧
      nextOf L (store (store st.mem (sub64 p L.hsz) (sizeOf st.mem (sub64 p L.hsz)))
          (sub64 p L.hsz + L.off) st.HEAD) x ∈ cyc) :
    tufree L fuel st p = .error .outOfFuel := by
  unfold tufree
  rw [if_neg hp, if_neg (not_not.mpr hg)]
  simp only []
  have hn := find_next_loop_cycle L _ _ cyc hcyc fuel (sub64 p L.hsz) hmem
  rw [coalesce_diverges L fuel _ _ hb (by unfold find_next; exact hn)]

/-- The growing path of `turealloc`: when the guard is valid, the new size
exceeds the recorded one and the inner `tumalloc` returns `q`, the result is
that of copying the old payload to `q` and releasing the old block. -/
theorem turealloc_grow_eq (L : Layout) (fuel : Nat) (st st1 : State) (p n q : Nat)
    (hp : p ≠ NULL) (hn : n ≠ 0) (hg : magicOf L st.mem (sub64 p L.hsz) = MAGIC_NUMBER)
    (hlt : sizeOf st.mem (sub64 p L.hsz) < n)
    (hm : tumalloc L fuel st n = .ok (q, st1)) (hq : q ≠ NULL) :
    turealloc L fuel st p n =
      match tufree L fuel
        { st1 with mem := memcpy st1.mem q p (sizeOf st.mem (sub64 p L.hsz)) } p with
      | .error e => .error e
      | .ok st2 => .ok (q, st2) := by
  unfold turealloc
  rw [if_neg hp, if_neg hn, if_neg (not_not.mpr hg)]
  simp only []
  rw [if_neg (Nat.not_le.mpr hlt), hm]
  simp only []
  rw [if_neg hq]

/-- On a set of blocks closed under `next` that does not hold `NULL`, the walk
along the `next` links never ends: it uses all the fuel it is given. -/
theorem free_list_cycle (L : Layout) (m : Mem) (cyc : List Nat)
    (h : ∀ x ∈ cyc, x ≠ NULL ∧ nextOf L m x ∈ cyc) :
    ∀ (fuel x : Nat), x ∈ cyc → (free_list L m fuel x).length = fuel := by
  intro fuel
  induction fuel with
  | zero =>
    intro x _
    rfl
  | succ k ih =>
    intro x hx
    unfold free_list
    rw [if_neg (h x hx).1, List.length_cons, ih _ (h x hx).2]

/-! ## Lemmas on memory and arithmetic -/

/-- Reading an address just written gives the value written. -/
theorem load_store_same (m : Mem) (a v : Nat) : load (store m a v) a = v := by
  unfold load store
  rw [if_pos rfl]

/-- Reading another address than the one written gives the old value. -/
theorem load_store_other (m : Mem) (a b v : Nat) (h : b ≠ a) :
    load (store m a v) b = load m b := by
  unfold load store
  rw [if_neg h]

/-- A size that fits the `int` parameter of `split` comes through unchanged. -/
theorem intArg_small (n : Nat) (hn : n < 2147483648) : intArg n = n := by
  unfold intArg
  have h : n % 4294967296 = n := Nat.mod_eq_of_lt (by omega)
  rw [h, if_pos hn]

/-! ## Lemmas on the placement search -/

/-- What `split` returns is `NULL` or the block it was given. -/
theorem split_fst (L : Layout) (m : Mem) (block size : Nat) :
    (split L m block size).1 = NULL ∨ (split L m block size).1 = block := by
  unfold split
  simp only []
  split
  · exact Or.inl rfl
  · exact Or.inr rfl

/-- The search either returns `NULL` and leaves the state alone, or returns
its one candidate and records it as the cursor. -/
theorem next_fit_search_result (L : Layout) (fuel : Nat) (st st1 : State) (size ptr : Nat)
    (h : next_fit_search L fuel st size = .ok (ptr, st1)) :
    (ptr = NULL ∧ st1 = st) ∨
      (ptr ≠ NULL ∧ ptr = candidate st ∧ st1.LAST_ALLOC = ptr) := by
  unfold next_fit_search at h
  by_cases h0 : st.HEAD = NULL
  · rw [if_pos h0] at h
    cases h
    exact Or.inl ⟨rfl, rfl⟩
  · rw [if_neg h0] at h
    simp only [] at h
    have hcurr : candidate st ≠ NULL := by
      unfold candidate
      split
      · assumption
      · assumption
    have hc : (if st.LAST_ALLOC ≠ NULL then st.LAST_ALLOC else st.HEAD) = candidate st := rfl
    rw [hc] at h
    by_cases hfit : sizeOf st.mem (candidate st) ≥ size
    · rw [if_pos hfit] at h
      by_cases hr : (split L st.mem (candidate st) size).1 ≠ NULL
      · rw [if_pos hr] at h
        split at h
        · cases h
        · injection h with h
          injection h with h1 h2
          refine Or.inr ⟨h1 ▸ hr, ?_, ?_⟩
          · rcases split_fst L st.mem (candidate st) size with hs | hs
            · exact absurd hs hr
            · rw [← h1, hs]
          · rw [← h2, ← h1]
      · rw [if_neg hr] at h
        split at h
        · cases h
        · injection h with h
          injection h with h1 h2
          refine Or.inr ⟨h1 ▸ hcurr, h1.symm, ?_⟩
          rw [← h2, ← h1]
    · rw [if_neg hfit] at h
      split at h
      · split at h
        · cases h
        · cases h
          exact Or.inl ⟨rfl, rfl⟩
      · cases h
        exact Or.inl ⟨rfl, rfl⟩

/-- `tumalloc` of a non-zero size, given what the search returned. -/
theorem tumalloc_of_search (L : Layout) (fuel : Nat) (st st1 : State) (size ptr : Nat)
    (hs : size ≠ 0)
    (h : next_fit_search L fuel st ((size + L.hsz) % W64) = .ok (ptr, st1)) :
    tumalloc L fuel st size =
      if ptr ≠ NULL then
        .ok ((ptr + L.hsz) % W64,
          { st1 with mem := store (store st1.mem ptr size) (ptr + L.off) MAGIC_NUMBER })
      else .ok (do_alloc L st1 size) := by
  unfold tumalloc
  rw [if_neg hs]
  simp only [h]

/-- When `sbrk` refuses the growth, `do_alloc` returns `NULL` and the state
it was called in. -/
theorem do_alloc_fail (L : Layout) (st : State) (size : Nat)
    (h : (sbrk st ((size + L.hsz + alignment_correction st) % W64)).1 = none) :
    do_alloc L st size = (NULL, st) := by
  unfold do_alloc
  simp only []
  have hc : (if st.brk % ALIGNMENT ≠ 0 then ALIGNMENT - st.brk % ALIGNMENT else 0)
      = alignment_correction st := rfl
  rw [hc]
  unfold sbrk at h ⊢
  by_cases hle : st.brk + (size + L.hsz + alignment_correction st) % W64 ≤ st.limit
  · rw [if_pos hle] at h
    cases h
  · rw [if_neg hle]

/-! ## Lemmas on alignment -/

/-- Stepping back by a header keeps a pointer a multiple of `ALIGNMENT`. -/
theorem sub64_aligned (p h : Nat) (hp : p % ALIGNMENT = 0) (hh : h % ALIGNMENT = 0) :
    sub64 p h % ALIGNMENT = 0 := by
  unfold sub64
  unfold ALIGNMENT W64 at *
  omega

/-- Stepping forward by a header keeps a pointer a multiple of `ALIGNMENT`. -/
theorem add64_aligned (p h : Nat) (hp : p % ALIGNMENT = 0) (hh : h % ALIGNMENT = 0) :
    (p + h) % W64 % ALIGNMENT = 0 := by
  unfold ALIGNMENT W64 at *
  omega

/-- `do_alloc` returns `NULL` or a multiple of `ALIGNMENT` and leaves both globals alone. -/
theorem do_alloc_aligned (L : Layout) (st : State) (size : Nat)
    (h16 : L.hsz % ALIGNMENT = 0) :
    (do_alloc L st size).1 % ALIGNMENT = 0 ∧
      (do_alloc L st size).2.HEAD = st.HEAD ∧
      (do_alloc L st size).2.LAST_ALLOC = st.LAST_ALLOC := by
  unfold do_alloc
  simp only []
  have hc : (if st.brk % ALIGNMENT ≠ 0 then ALIGNMENT - st.brk % ALIGNMENT else 0)
      = alignment_correction st := rfl
  rw [hc]
  have ha : (st.brk + alignment_correction st) % ALIGNMENT = 0 := by
    unfold alignment_correction
    unfold ALIGNMENT
    split <;> omega
  unfold sbrk
  by_cases hle : st.brk + (size + L.hsz + alignment_correction st) % W64 ≤ st.limit
  · rw [if_pos hle]
    exact ⟨add64_aligned _ _ ha h16, rfl, rfl⟩
  · rw [if_neg hle]
    exact ⟨rfl, rfl, rfl⟩

/-- The one candidate of the search is a multiple of `ALIGNMENT` when the cursor invariant holds. -/
theorem candidate_aligned (st : State) (h : cursor_aligned st) :
    candidate st % ALIGNMENT = 0 := by
  unfold candidate
  by_cases hl : st.LAST_ALLOC ≠ NULL
  · rw [if_pos hl]
    exact h.1
  · rw [if_neg hl]
    exact h.2 (not_not.mp hl)

/-- `tumalloc` returns a multiple of `ALIGNMENT` and keeps the cursor invariant. -/
theorem tumalloc_aligned (L : Layout) (fuel : Nat) (st st1 : State) (n p : Nat)
    (h16 : L.hsz % ALIGNMENT = 0) (hinv : cursor_aligned st)
    (h : tumalloc L fuel st n = .ok (p, st1)) :
    p % ALIGNMENT = 0 ∧ cursor_aligned st1 := by
  by_cases hn : n = 0
  · unfold tumalloc at h
    rw [if_pos hn] at h
    cases h
    exact ⟨rfl, hinv⟩
  · cases hsr : next_fit_search L fuel st ((n + L.hsz) % W64) with
    | error e =>
      unfold tumalloc at h
      rw [if_neg hn] at h
      simp only [hsr] at h
      cases h
    | ok r =>
      obtain ⟨ptr, st2⟩ := r
      rw [tumalloc_of_search L fuel st st2 n ptr hn hsr] at h
      rcases next_fit_search_result L fuel st st2 _ ptr hsr with hr | hr
      · rw [if_neg (not_not.mpr hr.1)] at h
        obtain ⟨_, hst⟩ := hr
        subst hst
        have hd := do_alloc_aligned L st2 n h16
        injection h with h
        rw [h] at hd
        exact ⟨hd.1, by unfold cursor_aligned; rw [hd.2.1, hd.2.2]; exact hinv⟩
      · rw [if_pos hr.1] at h
        injection h with h
        injection h with h1 h2
        have hpa : ptr % ALIGNMENT = 0 := by
          rw [hr.2.1]
          exact candidate_aligned st hinv
        refine ⟨h1 ▸ add64_aligned _ _ hpa h16, ?_⟩
        rw [← h2]
        unfold cursor_aligned
        simp only []
        rw [hr.2.2]
        exact ⟨hpa, fun h0 => absurd h0 hr.1⟩

/-- `coalesce` changes neither `HEAD` nor `LAST_ALLOC`. -/
theorem coalesce_globals (L : Layout) (fuel : Nat) (st st1 : State) (block b : Nat)
    (h : coalesce L fuel st block = .ok (b, st1)) :
    st1.HEAD = st.HEAD ∧ st1.LAST_ALLOC = st.LAST_ALLOC := by
  unfold coalesce at h
  by_cases hb : block = NULL
  · rw [if_pos hb] at h
    cases h
    exact ⟨rfl, rfl⟩
  · rw [if_neg hb] at h
    split at h
    · cases h
    · split at h
      · cases h
      · injection h with h
        injection h with h1 h2
        rw [← h2]
        exact ⟨rfl, rfl⟩

/-- Releasing a multiple of `ALIGNMENT` keeps the cursor invariant. -/
theorem tufree_aligned (L : Layout) (fuel : Nat) (st st1 : State) (p : Nat)
    (h16 : L.hsz % ALIGNMENT = 0) (hinv : cursor_aligned st) (hp : p % ALIGNMENT = 0)
    (h : tufree L fuel st p = .ok st1) : cursor_aligned st1 := by
  unfold tufree at h
  by_cases h0 : p = NULL
  · rw [if_pos h0] at h
    cases h
    exact hinv
  · rw [if_neg h0] at h
    simp only [] at h
    by_cases hg : magicOf L st.mem (sub64 p L.hsz) ≠ MAGIC_NUMBER
    · rw [if_pos hg] at h
      cases h
      exact hinv
    · rw [if_neg hg] at h
      split at h
      · cases h
      · rename_i b st2 hco
        injection h with h
        subst h
        have hgl := coalesce_globals L fuel _ _ _ _ hco
        unfold cursor_aligned
        rw [hgl.1, hgl.2]
        exact ⟨hinv.1, fun _ => sub64_aligned p L.hsz hp h16⟩

/-- `turealloc` of a multiple of `ALIGNMENT` returns one and keeps the cursor invariant. -/
theorem turealloc_aligned (L : Layout) (fuel : Nat) (st st1 : State) (p n q : Nat)
    (h16 : L.hsz % ALIGNMENT = 0) (hinv : cursor_aligned st) (hp : p % ALIGNMENT = 0)
    (h : turealloc L fuel st p n = .ok (q, st1)) :
    q % ALIGNMENT = 0 ∧ cursor_aligned st1 := by
  unfold turealloc at h
  by_cases h0 : p = NULL
  · rw [if_pos h0] at h
    exact tumalloc_aligned L fuel st st1 n q h16 hinv h
  · rw [if_neg h0] at h
    by_cases hn : n = 0
    · rw [if_pos hn] at h
      cases hf : tufree L fuel st p with
      | error e => rw [hf] at h; cases h
      | ok st2 =>
        rw [hf] at h
        cases h
        exact ⟨rfl, tufree_aligned L fuel st st1 p h16 hinv hp hf⟩
    · rw [if_neg hn] at h
      simp only [] at h
      by_cases hg : magicOf L st.mem (sub64 p L.hsz) ≠ MAGIC_NUMBER
      · rw [if_pos hg] at h
        cases h
        exact ⟨rfl, hinv⟩
      · rw [if_neg hg] at h
        by_cases hle : n ≤ sizeOf st.mem (sub64 p L.hsz)
        · rw [if_pos hle] at h
          cases h
          exact ⟨hp, hinv⟩
        · rw [if_neg hle] at h
          cases hm : tumalloc L fuel st n with
          | error e => rw [hm] at h; cases h
          | ok r =>
            obtain ⟨q1, st2⟩ := r
            rw [hm] at h
            simp only [] at h
            have ha := tumalloc_aligned L fuel st st2 n q1 h16 hinv hm
            by_cases hq : q1 = NULL
            · rw [if_pos hq] at h
              cases h
              exact ⟨rfl, ha.2⟩
            · rw [if_neg hq] at h
              split at h
              · cases h
              · rename_i st3 hf
                injection h with h
                injection h with h1 h2
                subst h1 h2
                exact ⟨ha.1, tufree_aligned L fuel _ _ p h16 (by exact ha.2) hp hf⟩


/-- One step of a caller keeps the cursor invariant and the returned pointers multiples of `ALIGNMENT`. -/
theorem step_aligned (L : Layout) (fuel : Nat) (c c1 : State × List Nat) (op : Op)
    (h16 : L.hsz % ALIGNMENT = 0)
    (hinv : cursor_aligned c.1 ∧ ∀ p ∈ c.2, p % ALIGNMENT = 0)
    (h : step L fuel c op = .ok c1) :
    cursor_aligned c1.1 ∧ ∀ p ∈ c1.2, p % ALIGNMENT = 0 := by
  have hget : ∀ i, c.2.getD i NULL % ALIGNMENT = 0 := by
    intro i
    rw [List.getD_eq_getElem?_getD]
    cases hi : c.2[i]? with
    | none => rfl
    | some v => exact hinv.2 v (List.getElem?_mem hi)
  have happ : ∀ q, q % ALIGNMENT = 0 → ∀ p ∈ c.2 ++ [q], p % ALIGNMENT = 0 := by
    intro q hq p hp
    rcases List.mem_append.mp hp with hp | hp
    · exact hinv.2 p hp
    · rw [List.mem_singleton.mp hp]
      exact hq
  cases op with
  | malloc n =>
    unfold step at h
    cases hm : tumalloc L fuel c.1 n with
    | error e => simp only [hm] at h; cases h
    | ok r =>
      obtain ⟨q, st⟩ := r
      simp only [hm] at h
      cases h
      have ha := tumalloc_aligned L fuel c.1 st n q h16 hinv.1 hm
      exact ⟨ha.2, happ q ha.1⟩
  | calloc k n =>
    unfold step at h
    cases hm : tucalloc L fuel c.1 k n with
    | error e => simp only [hm] at h; cases h
    | ok r =>
      obtain ⟨q, st⟩ := r
      simp only [hm] at h
      cases h
      unfold tucalloc at hm
      by_cases hz : k = 0 ∨ n = 0
      · rw [if_pos hz] at hm
        cases hm
        exact ⟨hinv.1, happ NULL rfl⟩
      · rw [if_neg hz] at hm
        have ha := tumalloc_aligned L fuel c.1 st _ q h16 hinv.1 hm
        exact ⟨ha.2, happ q ha.1⟩
  | realloc i n =>
    unfold step at h
    cases hm : turealloc L fuel c.1 (c.2.getD i NULL) n with
    | error e => simp only [hm] at h; cases h
    | ok r =>
      obtain ⟨q, st⟩ := r
      simp only [hm] at h
      cases h
      have ha := turealloc_aligned L fuel c.1 st _ n q h16 hinv.1 (hget i) hm
      exact ⟨ha.2, happ q ha.1⟩
  | free i =>
    unfold step at h
    cases hm : tufree L fuel c.1 (c.2.getD i NULL) with
    | error e => simp only [hm] at h; cases h
    | ok st =>
      simp only [hm] at h
      cases h
      exact ⟨tufree_aligned L fuel c.1 st _ h16 hinv.1 (hget i) hm, hinv.2⟩
  | poke a v =>
    unfold step at h
    cases h
    exact ⟨hinv.1, hinv.2⟩

/-- A sequence of steps keeps the cursor invariant and the returned pointers multiples of `ALIGNMENT`. -/
theorem run_aligned (L : Layout) (fuel : Nat) (h16 : L.hsz % ALIGNMENT = 0) :
    ∀ (ops : List Op) (c c1 : State × List Nat),
      (cursor_aligned c.1 ∧ ∀ p ∈ c.2, p % ALIGNMENT = 0) →
      run L fuel ops c = .ok c1 →
      cursor_aligned c1.1 ∧ ∀ p ∈ c1.2, p % ALIGNMENT = 0 := by
  intro ops
  induction ops with
  | nil =>
    intro c c1 hinv h
    unfold run at h
    cases h
    exact hinv
  | cons op ops ih =>
    intro c c1 hinv h
    unfold run at h
    cases hs : step L fuel c op with
    | error e => simp only [hs] at h; cases h
    | ok c2 =>
      simp only [hs] at h
      exact ih c2 c1 (step_aligned L fuel c c2 op h16 hinv hs) h

/-! ## Scenarios in which the code does what the specification describes -/

/-- Released in reverse address order, two adjacent 16-byte blocks end as one
free block at the first header, of size `16 + 16 + header_size`. -/
theorem release_in_reverse_one_block :
    ∃ s, release_in_reverse 16 = .ok s ∧ free_list lp64 s.mem 8 s.HEAD = [4096] ∧
      sizeOf s.mem 4096 = 16 + 16 + lp64.hsz :=
  ⟨_, rfl, rfl, rfl⟩

/-- On a fresh heap, growing a 100-byte allocation to 1000 bytes returns a new
pointer whose header records 1000 and the guard, whose first and last copied
values are the old ones, and the old block is the one block of the free
list. -/
theorem grow_on_fresh_heap_ok :
    ∃ p q s, grow_on_fresh_heap = .ok (p, q, s) ∧ q ≠ NULL ∧
      sizeOf s.mem (q - lp64.hsz) = 1000 ∧ magicOf lp64 s.mem (q - lp64.hsz) = MAGIC_NUMBER ∧
      load s.mem q = 170 ∧ load s.mem (q + 99) = 170 ∧
      free_list lp64 s.mem 8 s.HEAD = [p - lp64.hsz] :=
  ⟨4112, 4240, _, rfl, by decide, rfl, rfl, rfl, rfl, rfl⟩

/-! ## Theorems -/

/-- C1 (the code departs from the claim): a live allocation of 4096 bytes at
`p`, filled by the caller with the value 170 and neither released nor resized,
is handed out a second time by the next `tumalloc(1)`, which returns `q = p`,
and that call writes the header of a split remainder inside the payload: the
address 4129 lies in `[p, p + 4096)`, held 170 before the call and holds 4063
after it. -/
theorem tumalloc_hands_out_live_payload :
    ∃ p q s4 s5, reuse_trace = .ok (p, q, s4, s5) ∧ p = 4112 ∧ q = p ∧
      sizeOf s4.mem (p - lp64.hsz) = 4096 ∧ magicOf lp64 s4.mem (p - lp64.hsz) = MAGIC_NUMBER ∧
      (p ≤ 4129 ∧ 4129 < p + 4096) ∧ load s4.mem 4129 = 170 ∧ load s5.mem 4129 = 4063 :=
  ⟨4112, 4112, _, _, rfl, rfl, rfl, rfl, rfl, by decide, rfl, rfl⟩

/-- C2 (the code departs from the claim): with an empty free list and two live
blocks `A = 4096` and `B = 4128 = A + header_size + A.size` of 16 bytes each,
releasing `A` and then `B` leaves two blocks on the free list, `B` with size
16 followed by `A` with size 48, not the single block the claim describes. -/
theorem release_in_order_leaves_two_blocks :
    (∃ a b s2, two_blocks 16 = .ok (a, b, s2) ∧ s2.HEAD = NULL ∧
      a - lp64.hsz = 4096 ∧ b - lp64.hsz = 4096 + lp64.hsz + sizeOf s2.mem 4096) ∧
    ∃ s, release_in_order 16 = .ok s ∧ free_list lp64 s.mem 8 s.HEAD = [4128, 4096] ∧
      sizeOf s.mem 4128 = 16 ∧ sizeOf s.mem 4096 = 48 :=
  ⟨⟨4112, 4144, _, rfl, rfl, rfl, rfl⟩, _, rfl, rfl, rfl, rfl⟩

/-- C3 (the code departs from the claim): after two adjacent 64-byte blocks
are released in address order and 16 bytes are allocated, the returned block
(header at 4176, payload at `c = 4192`) is live while the block at 4096, of
size 144 and reachable from `HEAD`, covers its header and its payload. -/
theorem free_list_covers_live_block :
    ∃ c s, release_then_alloc = .ok (c, s) ∧ c = 4192 ∧
      magicOf lp64 s.mem (c - lp64.hsz) = MAGIC_NUMBER ∧ sizeOf s.mem (c - lp64.hsz) = 16 ∧
      4096 ∈ free_list lp64 s.mem 8 s.HEAD ∧ sizeOf s.mem 4096 = 144 ∧
      overlaps lp64 s.mem 4096 (c - lp64.hsz) :=
  ⟨4192, _, rfl, rfl, rfl, rfl, by decide, rfl, by decide⟩

/-- C4 (the code departs from the claim): after two adjacent 16-byte blocks
are released in address order, the two distinct blocks 4128 and 4096 are both
reachable from `HEAD` and their byte ranges `[4128, 4160)` and `[4096, 4160)`
overlap. -/
theorem free_list_blocks_overlap :
    ∃ s, release_in_order 16 = .ok s ∧ 4128 ∈ free_list lp64 s.mem 8 s.HEAD ∧
      4096 ∈ free_list lp64 s.mem 8 s.HEAD ∧ overlaps lp64 s.mem 4128 4096 :=
  ⟨_, rfl, by decide, by decide, by decide⟩

/-- C5 (the code departs from the claim): the free list `4160 -> 4096 -> NULL`
is NULL-terminated, has no overlapping and no adjacent blocks, and `p = 4144`
is a live pointer with a valid guard; after `tufree(p)` the block at 4128 is
the head of the list, the block at 4160 is its successor, and 4160 starts
exactly where 4128 ends. -/
theorem release_leaves_adjacent_blocks :
    ∃ p s, outer_released = .ok (p, s) ∧ p = 4144 ∧
      free_list lp64 s.mem 8 s.HEAD = [4160, 4096] ∧
      (∀ x ∈ free_list lp64 s.mem 8 s.HEAD, ∀ y ∈ free_list lp64 s.mem 8 s.HEAD,
        ¬ adjacent lp64 s.mem x y ∧ (x ≠ y → ¬ overlaps lp64 s.mem x y)) ∧
      magicOf lp64 s.mem (p - lp64.hsz) = MAGIC_NUMBER ∧
      ∃ t, tufree lp64 8 s p = .ok t ∧ t.HEAD = 4128 ∧ nextOf lp64 t.mem 4128 = 4160 ∧
        adjacent lp64 t.mem 4128 4160 :=
  ⟨4144, _, rfl, rfl, rfl, by decide, rfl, _, rfl, rfl, rfl, by decide⟩

/-- C6: for every non-NULL pointer `p` whose preceding header does not carry
`MAGIC_NUMBER`, `tufree(p)` returns with the state unchanged, and
`turealloc(p, n)` returns `NULL` with the state unchanged for every `n`, zero
included: `HEAD`, `LAST_ALLOC`, the program break and every stored value of
the heap are the same. -/
theorem guard_mismatch_no_mutation (L : Layout) (fuel : Nat) (st : State) (p n : Nat)
    (hp : p ≠ NULL) (hg : magicOf L st.mem (sub64 p L.hsz) ≠ MAGIC_NUMBER) :
    tufree L fuel st p = .ok st ∧ turealloc L fuel st p n = .ok (NULL, st) := by
  have hfree : tufree L fuel st p = .ok st := by
    unfold tufree
    rw [if_neg hp, if_pos hg]
  refine ⟨hfree, ?_⟩
  unfold turealloc
  rw [if_neg hp]
  by_cases hn : n = 0
  · rw [if_pos hn, hfree]
  · rw [if_neg hn, if_pos hg]

/-- The hypotheses of `guard_mismatch_no_mutation` hold for the pointer 4144
in a state with a non-empty free list whose guard the caller overwrote. -/
theorem guard_mismatch_no_mutation_witness :
    (guard_overwritten = .ok (4144, guard_overwritten_state) ∧
      guard_overwritten_state.HEAD = 4096 ∧ (4144 : Nat) ≠ NULL ∧
      magicOf lp64 guard_overwritten_state.mem (sub64 4144 lp64.hsz) ≠ MAGIC_NUMBER) ∧
    (tufree lp64 8 guard_overwritten_state 4144 = .ok guard_overwritten_state ∧
      turealloc lp64 8 guard_overwritten_state 4144 0 = .ok (NULL, guard_overwritten_state)) :=
  ⟨⟨rfl, rfl, by decide, by decide⟩,
    guard_mismatch_no_mutation lp64 8 guard_overwritten_state 4144 0 (by decide) (by decide)⟩

/-- C7 (the code departs from the claim): with a free list of one block of
size `S = 64`, `tumalloc(16)` is served by splitting that block and leaves the
remainder block 4144 on the free list with size 16, which is
`S - 16 - 2 * header_size` and not `S - 16 - header_size = 32`. -/
theorem split_remainder_loses_a_header :
    ∃ s p t, one_free_block = .ok s ∧ free_list lp64 s.mem 8 s.HEAD = [4096] ∧
      sizeOf s.mem 4096 = 64 ∧ tumalloc lp64 8 s 16 = .ok (p, t) ∧ p = 4096 + lp64.hsz ∧
      free_list lp64 t.mem 8 t.HEAD = [4144] ∧ sizeOf t.mem 4144 = 16 ∧
      sizeOf t.mem 4144 = 64 - 16 - 2 * lp64.hsz ∧ sizeOf t.mem 4144 ≠ 64 - 16 - lp64.hsz :=
  ⟨_, 4112, _, rfl, rfl, rfl, rfl, rfl, rfl, rfl, rfl, by decide⟩

/-- C8 (the code departs from the claim): with a free list of one block of
size `S = 64`, after `tumalloc(16)` is served by a split the returned block
records size 16 and the remainder block has size 16, so size plus header of
the two is `(16 + 16) + (16 + 16) = 64`, short of `S + header_size = 80` by
one header. -/
theorem split_allocation_not_conserving :
    ∃ s p t, one_free_block = .ok s ∧ free_list lp64 s.mem 8 s.HEAD = [4096] ∧
      sizeOf s.mem 4096 = 64 ∧ tumalloc lp64 8 s 16 = .ok (p, t) ∧
      free_list lp64 t.mem 8 t.HEAD = [4144] ∧
      (sizeOf t.mem (p - lp64.hsz) + lp64.hsz) + (sizeOf t.mem 4144 + lp64.hsz) = 64 ∧
      (sizeOf t.mem (p - lp64.hsz) + lp64.hsz) + (sizeOf t.mem 4144 + lp64.hsz)
        ≠ sizeOf s.mem 4096 + lp64.hsz :=
  ⟨_, _, _, rfl, rfl, rfl, rfl, rfl, rfl, by decide⟩

/-- C9 (the code departs from the claim): from a state whose free list is one
block of size 64 with payload values 170, `tucalloc(1, 16)` stamps the header
with size 32 and leaves the remainder at 4160, where `tumalloc(16)` stamps 16
and leaves the remainder at 4144, and the first payload value at the returned
pointer is 170, not zero. -/
theorem tucalloc_is_not_zeroing_tumalloc :
    ∃ s p t q u, one_free_block = .ok s ∧
      tucalloc lp64 8 s 1 16 = .ok (p, t) ∧ tumalloc lp64 8 s (1 * 16) = .ok (q, u) ∧
      sizeOf t.mem (p - lp64.hsz) = 32 ∧ sizeOf u.mem (q - lp64.hsz) = 16 ∧
      t.HEAD = 4160 ∧ u.HEAD = 4144 ∧ load t.mem p = 170 :=
  ⟨_, _, _, _, _, rfl, rfl, rfl, rfl, rfl, rfl, rfl, rfl⟩

/-- C10 (the code departs from the claim): after three adjacent 16-byte blocks
are released first, third, second, `p = 4208` is a live pointer with a valid
guard and recorded size 100, and `tumalloc(1000)` succeeds from that state
with the pointer 4336; yet `turealloc(p, 1000)` yields no pointer whatever the
fuel: the release of the old block walks a free list that the earlier
coalescing closed into a cycle at the block 4096. -/
theorem turealloc_grow_does_not_return :
    middle_released_last = .ok (4208, middle_released_last_state) ∧
    magicOf lp64 middle_released_last_state.mem (4208 - lp64.hsz) = MAGIC_NUMBER ∧
    sizeOf middle_released_last_state.mem (4208 - lp64.hsz) = 100 ∧
    nextOf lp64 middle_released_last_state.mem 4096 = 4096 ∧
    (∀ fuel, tumalloc lp64 fuel middle_released_last_state 1000
      = .ok (4336, middle_released_last_grown)) ∧
    ∀ fuel, turealloc lp64 fuel middle_released_last_state 4208 1000 = .error .outOfFuel := by
  refine ⟨rfl, rfl, rfl, rfl, fun _ => rfl, fun fuel => ?_⟩
  rw [turealloc_grow_eq lp64 fuel middle_released_last_state middle_released_last_grown
    4208 1000 4336 (by decide) (by decide) rfl (by decide) rfl (by decide)]
  rw [tufree_diverges lp64 fuel
    { middle_released_last_grown with
      mem := memcpy middle_released_last_grown.mem 4336 4208
        (sizeOf middle_released_last_state.mem (sub64 4208 lp64.hsz)) }
    4208 [4192, 4128, 4160, 4096] (by decide) rfl (by decide) (by decide) (by decide)]

/-- C11: for every non-NULL pointer `p` whose header carries `MAGIC_NUMBER`
and records the size `old`, and every `new_size` with `0 < new_size <= old`,
`turealloc(p, new_size)` returns `p` itself and the state it leaves is the
state it was called in: the size field of the header, `HEAD`, `LAST_ALLOC` and
every link and size of the free list are untouched, and nothing is split
off. -/
theorem turealloc_shrink_in_place (L : Layout) (fuel : Nat) (st : State) (p new_size : Nat)
    (hp : p ≠ NULL) (hg : magicOf L st.mem (sub64 p L.hsz) = MAGIC_NUMBER)
    (hpos : 0 < new_size) (hle : new_size ≤ sizeOf st.mem (sub64 p L.hsz)) :
    turealloc L fuel st p new_size = .ok (p, st) := by
  unfold turealloc
  rw [if_neg hp, if_neg (Nat.pos_iff_ne_zero.mp hpos), if_neg (not_not.mpr hg)]
  simp only []
  rw [if_pos hle]

/-- The hypotheses of `turealloc_shrink_in_place` hold for the 100-byte
allocation at 4112 on a fresh heap, shrunk to 10 bytes. -/
theorem turealloc_shrink_in_place_witness :
    ((4112 : Nat) ≠ NULL ∧
      magicOf lp64 one_live_block_state.mem (sub64 4112 lp64.hsz) = MAGIC_NUMBER ∧
      sizeOf one_live_block_state.mem (sub64 4112 lp64.hsz) = 100 ∧ 0 < 10 ∧ 10 ≤ 100) ∧
    turealloc lp64 8 one_live_block_state 4112 10 = .ok (4112, one_live_block_state) :=
  ⟨⟨by decide, rfl, rfl, by decide, by decide⟩,
    turealloc_shrink_in_place lp64 8 one_live_block_state 4112 10 (by decide) rfl
      (by decide) (by decide)⟩

/-- C12: in every state and for every `n`, `tumalloc(0)`, `tucalloc(0, n)` and
`tucalloc(n, 0)` return `NULL` and leave the state as it was: `HEAD`,
`LAST_ALLOC`, the heap with the free list in it, and the program break. -/
theorem zero_size_requests_are_no_ops (L : Layout) (fuel : Nat) (st : State) (n : Nat) :
    tumalloc L fuel st 0 = .ok (NULL, st) ∧ tucalloc L fuel st 0 n = .ok (NULL, st) ∧
      tucalloc L fuel st n 0 = .ok (NULL, st) := by
  refine ⟨?_, ?_, ?_⟩
  · unfold tumalloc
    rw [if_pos rfl]
  · unfold tucalloc
    rw [if_pos (Or.inl rfl)]
  · unfold tucalloc
    rw [if_pos (Or.inr rfl)]

/-- C13: in every state and for every `s > 0`, when the placement search
returns `NULL` and `sbrk` refuses the growth `do_alloc` asks for, `tumalloc(s)`
returns `NULL` and leaves the state as it was: `HEAD`, `LAST_ALLOC`, the
program break and every stored value of the heap, so every header and every
free-list link and size. -/
theorem tumalloc_exhausted_no_mutation (L : Layout) (fuel : Nat) (st st1 : State) (s : Nat)
    (hs : 0 < s)
    (hmiss : next_fit_search L fuel st ((s + L.hsz) % W64) = .ok (NULL, st1))
    (hfull : (sbrk st ((s + L.hsz + alignment_correction st) % W64)).1 = none) :
    tumalloc L fuel st s = .ok (NULL, st) := by
  have hst : st1 = st := by
    rcases next_fit_search_result L fuel st st1 _ NULL hmiss with h | h
    · exact h.2
    · exact absurd rfl h.1
  subst hst
  rw [tumalloc_of_search L fuel st1 st1 s NULL (Nat.pos_iff_ne_zero.mp hs) hmiss,
    if_neg (not_not.mpr rfl)]
  rw [do_alloc_fail L st1 s hfull]

/-- The hypotheses of `tumalloc_exhausted_no_mutation` hold in a state with
one free block of 64 bytes for a request of 1048576 bytes: the only candidate
is too small and the growth passes the limit of the heap. -/
theorem tumalloc_exhausted_no_mutation_witness :
    (0 < 1048576 ∧
      next_fit_search lp64 8 one_free_block_state ((1048576 + lp64.hsz) % W64)
        = .ok (NULL, one_free_block_state) ∧
      (sbrk one_free_block_state
        ((1048576 + lp64.hsz + alignment_correction one_free_block_state) % W64)).1 = none) ∧
    tumalloc lp64 8 one_free_block_state 1048576 = .ok (NULL, one_free_block_state) :=
  ⟨⟨by decide, rfl, rfl⟩,
    tumalloc_exhausted_no_mutation lp64 8 one_free_block_state one_free_block_state 1048576
      (by decide) rfl rfl⟩

/-- C14 (the code departs from the claim): the free list `4208 -> 4096 -> NULL`
is not empty and NULL-terminated, the cursor is `NULL`, and the block 4096
has size 64, yet `next_fit_search(32)` returns `NULL`: the block at the head
has size 16, and the search gives up after that one candidate. -/
theorem search_misses_fitting_block :
    ∃ s, small_before_large = .ok s ∧ free_list lp64 s.mem 8 s.HEAD = [4208, 4096] ∧
      s.LAST_ALLOC = NULL ∧ sizeOf s.mem 4208 = 16 ∧ sizeOf s.mem 4096 = 64 ∧
      4096 ∈ free_list lp64 s.mem 8 s.HEAD ∧ 32 ≤ sizeOf s.mem 4096 ∧
      next_fit_search lp64 8 s 32 = .ok (NULL, s) :=
  ⟨_, rfl, rfl, rfl, rfl, rfl, by decide, by decide, rfl⟩

/-- C15 (the code departs from the claim): after 4096 bytes were allocated at
`p = 4112`, the cursor `LAST_ALLOC` is the live block 4096 and the free list
is `8224 -> NULL`; `next_fit_search(17)` returns the block 4096, which was not
on the free list when the call began. -/
theorem search_returns_unlisted_cursor :
    ∃ p s, cursor_on_live_block = .ok (p, s) ∧ p = 4112 ∧ s.LAST_ALLOC = 4096 ∧
      free_list lp64 s.mem 8 s.HEAD = [8224] ∧ 4096 ∉ free_list lp64 s.mem 8 s.HEAD ∧
      ∃ t, next_fit_search lp64 8 s 17 = .ok (4096, t) :=
  ⟨4112, _, rfl, rfl, rfl, rfl, by decide, _, rfl⟩

/-- C17 (the code departs from the claim): the free list `4192 -> 4128 -> NULL`
is NULL-terminated and has no overlapping blocks, `p = 4112` is a live pointer
with a valid guard whose block 4096 is adjacent to 4128 and not to 4192 on
either side; after `tufree(p)` the free list is `4096 -> NULL` and the block
4192 is no longer on it. -/
theorem release_drops_unrelated_block :
    ∃ p s, unrelated_block_listed = .ok (p, s) ∧ p = 4112 ∧
      free_list lp64 s.mem 8 s.HEAD = [4192, 4128] ∧ ¬ overlaps lp64 s.mem 4192 4128 ∧
      magicOf lp64 s.mem (p - lp64.hsz) = MAGIC_NUMBER ∧
      ¬ adjacent lp64 s.mem (p - lp64.hsz) 4192 ∧ ¬ adjacent lp64 s.mem 4192 (p - lp64.hsz) ∧
      ∃ t, tufree lp64 8 s p = .ok t ∧ free_list lp64 t.mem 8 t.HEAD = [4096] ∧
        4192 ∉ free_list lp64 t.mem 8 t.HEAD :=
  ⟨4112, _, rfl, rfl, rfl, by decide, rfl, by decide, by decide, _, rfl, rfl, by decide⟩

/-- C18 (the code departs from the claim): after three adjacent 16-byte blocks
`P = 4096`, `X = 4128`, `N = 4160` are released in the order `P`, `N`, `X`,
the list from `HEAD` is `4128 -> 4160 -> 4096 -> 4096 -> ...`: the walk along
the `next` links never reaches `NULL`, whatever the number of steps, and the
release of the block that a later `tumalloc(16)` returns does not end,
whatever the fuel. -/
theorem coalesce_closes_a_cycle :
    three_releases = .ok three_releases_state ∧
    three_releases_state.HEAD = 4128 ∧ nextOf lp64 three_releases_state.mem 4128 = 4160 ∧
    nextOf lp64 three_releases_state.mem 4160 = 4096 ∧
    nextOf lp64 three_releases_state.mem 4096 = 4096 ∧
    (∀ fuel, (free_list lp64 three_releases_state.mem fuel three_releases_state.HEAD).length
      = fuel) ∧
    (∀ fuel, tumalloc lp64 fuel three_releases_state 16 = .ok (4208, three_releases_grown)) ∧
    ∀ fuel, tufree lp64 fuel three_releases_grown 4208 = .error .outOfFuel := by
  refine ⟨rfl, rfl, rfl, rfl, rfl, fun fuel => ?_, fun _ => rfl, fun fuel => ?_⟩
  · exact free_list_cycle lp64 _ [4128, 4160, 4096] (by decide) fuel _ (by decide)
  · exact tufree_diverges lp64 fuel three_releases_grown 4208 [4192, 4128, 4160, 4096]
      (by decide) rfl (by decide) (by decide) (by decide)

/-- C16: for a block `b` that lies in the address space, with size `S` and next
link `nxt`, and a request `n >= 0` that fits the `int` parameter, `split(b, n)`
returns `NULL` exactly when `S < n + header_size`, and then leaves the memory
unchanged; otherwise it returns `b`, the size of `b` is `n`, and the block at
`b + header_size + n` has size `S - n - header_size` and next link `nxt`. -/
theorem split_spec (L : Layout) (m : Mem) (b n : Nat)
    (hoff : 0 < L.off ∧ L.off < L.hsz) (hb : b ≠ NULL) (hn : n < 2147483648)
    (hblock : b + L.hsz + sizeOf m b < W64) (hreq : n + L.hsz < W64) :
    ((split L m b n).1 = NULL ↔ sizeOf m b < n + L.hsz) ∧
    (sizeOf m b < n + L.hsz → split L m b n = (NULL, m)) ∧
    (¬ sizeOf m b < n + L.hsz →
      (split L m b n).1 = b ∧ sizeOf (split L m b n).2 b = n ∧
      sizeOf (split L m b n).2 (b + L.hsz + n) = sizeOf m b - n - L.hsz ∧
      nextOf L (split L m b n).2 (b + L.hsz + n) = nextOf L m b) := by
  have hi := intArg_small n hn
  have hmod : (n + L.hsz) % W64 = n + L.hsz := Nat.mod_eq_of_lt hreq
  by_cases hlt : sizeOf m b < n + L.hsz
  · have hs : split L m b n = (NULL, m) := by
      unfold split
      simp only [hi, hmod, if_pos hlt]
    refine ⟨⟨fun _ => hlt, fun _ => by rw [hs]⟩, fun _ => hs, fun h => absurd hlt h⟩
  · have hnb : (b + n + L.hsz) % W64 = b + L.hsz + n := by
      rw [Nat.mod_eq_of_lt (by omega)]
      omega
    have hsub : sub64 (sub64 (sizeOf m b) n) L.hsz = sizeOf m b - n - L.hsz := by
      unfold sub64
      unfold W64 at *
      omega
    have hs : split L m b n = (b, store (store (store m (b + L.hsz + n)
        (sizeOf m b - n - L.hsz)) (b + L.hsz + n + L.off)
        (nextOf L (store m (b + L.hsz + n) (sizeOf m b - n - L.hsz)) b)) b n) := by
      unfold split
      simp only [hi, hmod, if_neg hlt, hnb, hsub]
    refine ⟨⟨fun h => ?_, fun h => absurd h hlt⟩, fun h => absurd h hlt, fun _ => ?_⟩
    · rw [hs] at h
      exact absurd h hb
    · rw [hs]
      refine ⟨rfl, ?_, ?_, ?_⟩
      · unfold sizeOf
        rw [load_store_same]
      · unfold sizeOf
        rw [load_store_other _ _ _ _ (by omega), load_store_other _ _ _ _ (by omega),
          load_store_same]
      · unfold nextOf
        rw [load_store_other _ _ _ _ (by omega), load_store_same,
          load_store_other _ _ _ _ (by omega)]

/-- The hypotheses of `split_spec` hold for the free block 4096 of size 64 and
a request of 16 bytes, which `split` grants with a remainder of 32 bytes at
4128. -/
theorem split_spec_witness :
    ((0 < lp64.off ∧ lp64.off < lp64.hsz) ∧ (4096 : Nat) ≠ NULL ∧ 16 < 2147483648 ∧
      4096 + lp64.hsz + sizeOf one_free_block_state.mem 4096 < W64 ∧ 16 + lp64.hsz < W64 ∧
      sizeOf one_free_block_state.mem 4096 = 64) ∧
    (((split lp64 one_free_block_state.mem 4096 16).1 = NULL ↔
        sizeOf one_free_block_state.mem 4096 < 16 + lp64.hsz) ∧
      (sizeOf one_free_block_state.mem 4096 < 16 + lp64.hsz →
        split lp64 one_free_block_state.mem 4096 16 = (NULL, one_free_block_state.mem)) ∧
      (¬ sizeOf one_free_block_state.mem 4096 < 16 + lp64.hsz →
        (split lp64 one_free_block_state.mem 4096 16).1 = 4096 ∧
        sizeOf (split lp64 one_free_block_state.mem 4096 16).2 4096 = 16 ∧
        sizeOf (split lp64 one_free_block_state.mem 4096 16).2 (4096 + lp64.hsz + 16)
          = sizeOf one_free_block_state.mem 4096 - 16 - lp64.hsz ∧
        nextOf lp64 (split lp64 one_free_block_state.mem 4096 16).2 (4096 + lp64.hsz + 16)
          = nextOf lp64 one_free_block_state.mem 4096)) :=
  ⟨⟨by decide, by decide, by decide, by decide, by decide, rfl⟩,
    split_spec lp64 one_free_block_state.mem 4096 16 (by decide) (by decide) (by decide)
      (by decide) (by decide)⟩

/-- C19: when `header_size` is a multiple of `ALIGNMENT`, every pointer handed
to the caller in a run of the four public functions that starts with `HEAD`
and `LAST_ALLOC` equal to `NULL`, in which the caller releases and resizes
only pointers it was given and writes to memory as it likes, is a multiple of
`ALIGNMENT` (`NULL` included): the pointers `tumalloc` carves from fresh heap
and the ones it takes from the free list, whole or split, for every request
size. -/
theorem returned_pointers_aligned (L : Layout) (fuel : Nat) (ops : List Op)
    (st0 st : State) (ptrs : List Nat)
    (h16 : L.hsz % ALIGNMENT = 0)
    (h0 : st0.HEAD = NULL ∧ st0.LAST_ALLOC = NULL)
    (hrun : run L fuel ops (st0, []) = .ok (st, ptrs)) :
    ∀ p ∈ ptrs, p % ALIGNMENT = 0 := by
  have hinv : cursor_aligned (st0, ([] : List Nat)).1 ∧
      ∀ p ∈ (st0, ([] : List Nat)).2, p % ALIGNMENT = 0 := by
    refine ⟨⟨?_, fun _ => ?_⟩, fun p hp => absurd hp (List.not_mem_nil p)⟩
    · show st0.LAST_ALLOC % ALIGNMENT = 0
      rw [h0.2]
      rfl
    · show st0.HEAD % ALIGNMENT = 0
      rw [h0.1]
      rfl
  exact (run_aligned L fuel h16 ops (st0, []) (st, ptrs) hinv hrun).2

/-- The hypotheses of `returned_pointers_aligned` hold for a run on a fresh
heap with request sizes 100, 7, 5, 3 and 1, in which the third pointer comes
from a split of a released block. -/
theorem returned_pointers_aligned_witness :
    (lp64.hsz % ALIGNMENT = 0 ∧ (init.HEAD = NULL ∧ init.LAST_ALLOC = NULL) ∧
      run lp64 8 aligned_ops (init, [])
        = .ok (aligned_ops_state, [4112, 4240, 4112, 4272, 4112, 4320, 5344])) ∧
    ∀ p ∈ [4112, 4240, 4112, 4272, 4112, 4320, 5344], p % ALIGNMENT = 0 :=
  ⟨⟨rfl, ⟨rfl, rfl⟩, rfl⟩,
    returned_pointers_aligned lp64 8 aligned_ops init aligned_ops_state
      [4112, 4240, 4112, 4272, 4112, 4320, 5344] rfl ⟨rfl, rfl⟩ rfl⟩

end Alloc
